import Mathlib

/-!
# TextSubmission application — verification of the CRUD contract

Shallow embedding of the TextSubmissionAPI backend controller
(`src/backend/TextSubmissionAPI/Controllers/TextSubmissionController.cs`)
and of the Angular client (`dashboard.ts`, `text-submission-form.ts`,
`text-submission.ts`), together with theorems settling the specified
properties of the submission validation and CRUD consistency contract.

Timestamps (`DateTime.UtcNow`) are modelled as natural numbers (ticks);
the auto-increment primary key of the store is modelled by a `nextId`
counter carried alongside the row list.
-/

namespace TextSubmissionApp

/-- The persisted entity `TextSubmission` (Models/TextSubmission.cs):
`Id`, `Text`, `CreatedAt`. -/
structure TextSubmission where
  id : Nat
  text : String
  createdAt : Nat
  deriving Repr, DecidableEq

/-- Server-side database state: the `TextSubmissions` table plus the
auto-increment counter supplying the next primary key. -/
structure Db where
  rows : List TextSubmission
  nextId : Nat
  deriving Repr, DecidableEq

/-- Error kinds surfaced by the HTTP handlers (HTTP 404 and HTTP 400). -/
inductive ApiError where
  | notFound
  | validationError
  deriving Repr, DecidableEq

/-- Whitespace trimming as done by C#'s `String.Trim` (inside the
`[Required]` check) and JavaScript's `String.prototype.trim`: drop leading
and trailing whitespace characters. Defined structurally over the character
list so that it evaluates. -/
def trimString (s : String) : String :=
  String.mk
    (((s.data.dropWhile Char.isWhitespace).reverse.dropWhile
        Char.isWhitespace).reverse)

/-- Server-side validation of `TextSubmissionRequest.Text`:
`[Required]` rejects empty and whitespace-only strings, and
`[StringLength(1000)]` rejects strings longer than 1000 characters. -/
def isServerValid (text : String) : Bool :=
  !(trimString text).isEmpty && text.length ≤ 1000

/-- The auto-increment invariant of the store: every persisted row's key is
below the counter, so the counter always supplies a fresh key. -/
def Db.FreshIds (db : Db) : Prop :=
  ∀ r ∈ db.rows, r.id < db.nextId

/-- `FindAsync(id)`: the first (and, keys being unique, only) row with the
given primary key. -/
def Db.findRow (db : Db) (id : Nat) : Option TextSubmission :=
  db.rows.find? (fun r => r.id == id)

/-- Insert into a list that is already ordered by `createdAt` descending,
keeping earlier elements ahead of later ones with an equal timestamp
(the stable placement done by LINQ's `OrderByDescending`). -/
def insertByCreatedAtDesc (x : TextSubmission) :
    List TextSubmission → List TextSubmission
  | [] => [x]
  | y :: ys =>
    if y.createdAt ≤ x.createdAt then x :: y :: ys
    else y :: insertByCreatedAtDesc x ys

/-- `OrderByDescending(x => x.CreatedAt)`: stable sort of the rows by
`CreatedAt`, newest first. -/
def orderByCreatedAtDesc (rows : List TextSubmission) : List TextSubmission :=
  rows.foldr insertByCreatedAtDesc []

/-- GET `api/TextSubmission` (`GetTextSubmissions`): all rows ordered by
`CreatedAt` descending. -/
def getTextSubmissions (db : Db) : List TextSubmission :=
  orderByCreatedAtDesc db.rows

/-- GET `api/TextSubmission/{id}` (`GetTextSubmission`): 404 when no row has
the key, otherwise 200 with the row. -/
def getTextSubmission (db : Db) (id : Nat) : Except ApiError TextSubmission :=
  match db.findRow id with
  | none => .error .notFound
  | some r => .ok r

/-- The payload of a `CreatedAtAction` response: HTTP status 201, a
`Location` reference to `GetTextSubmission` at the new id, and the created
row as body. -/
structure CreatedResult where
  status : Nat
  locationId : Nat
  body : TextSubmission
  deriving Repr, DecidableEq

/-- POST `api/TextSubmission` (`PostTextSubmission`): reject invalid text
with 400 leaving the table untouched; otherwise persist one new row with a
fresh id and the current UTC timestamp and answer 201 with a location
reference to the by-id read. -/
def postTextSubmission (db : Db) (now : Nat) (text : String) :
    Db × Except ApiError CreatedResult :=
  if isServerValid text then
    let sub : TextSubmission := { id := db.nextId, text := text, createdAt := now }
    ({ rows := db.rows ++ [sub], nextId := db.nextId + 1 },
     .ok { status := 201, locationId := sub.id, body := sub })
  else
    (db, .error .validationError)

/-- Overwrite the `text` field of the first row carrying the given key,
leaving every other row and every other field untouched (the tracked-entity
mutation done by the PUT handler after `FindAsync`). -/
def updateFirstRow (id : Nat) (text : String) :
    List TextSubmission → List TextSubmission
  | [] => []
  | r :: rs =>
    if r.id == id then { r with text := text } :: rs
    else r :: updateFirstRow id text rs

/-- Remove the first row carrying the given key (the `Remove` of the tracked
entity done by the DELETE handler after `FindAsync`). -/
def removeFirstRow (id : Nat) :
    List TextSubmission → List TextSubmission
  | [] => []
  | r :: rs => if r.id == id then rs else r :: removeFirstRow id rs

/-- Modelled from the spec: the PUT handler `PutTextSubmission` is absent
from the repository snapshot (only its unit tests and the client caller
`updateSubmission` are present). Spec §4.1: `Update(id, text)` fails with
`NotFound` if id doesn't exist; fails with `ValidationError` under the same
text rules as Create; otherwise overwrites `text` only (timestamp untouched)
and returns the updated row. -/
def putTextSubmission (db : Db) (id : Nat) (text : String) :
    Db × Except ApiError TextSubmission :=
  match db.findRow id with
  | none => (db, .error .notFound)
  | some r =>
    if isServerValid text then
      ({ db with rows := updateFirstRow id text db.rows },
       .ok { r with text := text })
    else
      (db, .error .validationError)

/-- Modelled from the spec: the DELETE handler `DeleteTextSubmission` is
absent from the repository snapshot (only its unit tests and the client
caller `deleteSubmission` are present). Spec §4.1: `Delete(id)` fails with
`NotFound` if id doesn't exist; otherwise removes the row and returns no
content (HTTP 204). -/
def deleteTextSubmission (db : Db) (id : Nat) :
    Db × Except ApiError Unit :=
  match db.findRow id with
  | none => (db, .error .notFound)
  | some _ => ({ db with rows := removeFirstRow id db.rows }, .ok ())

/-! ## Client embedding (Angular components and service) -/

/-- The client DTO `TextSubmissionModel` (services/text-submission.ts):
`id`, `text`, `createdAt` (an ISO-8601 string on the wire). -/
structure TextSubmissionModel where
  id : Nat
  text : String
  createdAt : String
  deriving Repr, DecidableEq

/-- `TEXT_MIN_LENGTH` shared by the form and the dashboard. -/
def TEXT_MIN_LENGTH : Nat := 10

/-- `TEXT_MAX_LENGTH` shared by the form and the dashboard. -/
def TEXT_MAX_LENGTH : Nat := 50

/-- `ERROR_MESSAGES.LOAD_FAILED` of dashboard.ts. -/
def LOAD_FAILED : String := "Failed to load submissions. Please try again."

/-- Dashboard component state (dashboard.ts): the cached list, the loading
flag, the error banner, and the inline-edit state (`editingId`, `editText`). -/
structure DashState where
  submissions : List TextSubmissionModel
  isLoading : Bool
  errorMessage : String
  editingId : Option Nat
  editText : String
  deriving Repr, DecidableEq

/-- `setLoadingState(loading)`: sets `isLoading` and clears the error banner
when a load begins. -/
def setLoadingState (d : DashState) (loading : Bool) : DashState :=
  if loading then { d with isLoading := loading, errorMessage := "" }
  else { d with isLoading := loading }

/-- `handleError(message, error)`: sets the error banner (the error object
itself only goes to the console). -/
def handleError (d : DashState) (message : String) : DashState :=
  { d with errorMessage := message }

/-- `loadSubmissions()` up to the point the HTTP request is issued. -/
def loadSubmissionsStart (d : DashState) : DashState :=
  setLoadingState d true

/-- The `next` callback of `loadSubmissions()`: replace the list wholesale
and drop the loading flag. -/
def loadSubmissionsNext (d : DashState) (subs : List TextSubmissionModel) :
    DashState :=
  setLoadingState { d with submissions := subs } false

/-- The `error` callback of `loadSubmissions()`: generic error banner, then
loading flag off. -/
def loadSubmissionsError (d : DashState) : DashState :=
  setLoadingState (handleError d LOAD_FAILED) false

/-- `startEdit(submission)`: capture the row's id and text. -/
def startEdit (d : DashState) (submission : TextSubmissionModel) : DashState :=
  { d with editingId := some submission.id, editText := submission.text }

/-- `resetEditState()`. -/
def resetEditState (d : DashState) : DashState :=
  { d with editingId := none, editText := "" }

/-- `cancelEdit()`. -/
def cancelEdit (d : DashState) : DashState :=
  resetEditState d

/-- `isValidTextLength(text)`: the dashboard's client-side length check. -/
def isValidTextLength (text : String) : Bool :=
  TEXT_MIN_LENGTH ≤ text.length && text.length ≤ TEXT_MAX_LENGTH

/-- `updateSubmissionInList(id, updatedSubmission)`: patch-one — replace
every list entry carrying the id with the server's row, in place. -/
def updateSubmissionInList (subs : List TextSubmissionModel) (id : Nat)
    (updatedSubmission : TextSubmissionModel) : List TextSubmissionModel :=
  subs.map (fun sub => if sub.id == id then updatedSubmission else sub)

/-- `removeSubmissionFromList(id)`: remove-one — keep exactly the entries
whose id differs. -/
def removeSubmissionFromList (subs : List TextSubmissionModel) (id : Nat) :
    List TextSubmissionModel :=
  subs.filter (fun sub => sub.id != id)

/-- Outcome of the `updateSubmission` HTTP call observed by `saveEdit`. -/
inductive UpdateOutcome where
  | success (updated : TextSubmissionModel)
  | failure
  deriving Repr, DecidableEq

/-- `saveEdit(id)`: trim `editText`; on a failed client-side length check,
alert and make no call (state untouched); on a successful call, patch the
list and leave edit mode; on a failed call, alert only (state untouched). -/
def saveEdit (d : DashState) (id : Nat) (outcome : UpdateOutcome) : DashState :=
  let updatedText := trimString d.editText
  if !isValidTextLength updatedText then d
  else
    match outcome with
    | .success updated =>
      resetEditState
        { d with submissions := updateSubmissionInList d.submissions id updated }
    | .failure => d

/-- Outcome of the `deleteSubmission` HTTP call observed by
`deleteSubmission` in the dashboard. -/
inductive DeleteOutcome where
  | success
  | failure
  deriving Repr, DecidableEq

/-- `deleteSubmission(id, text)`: on a declined confirmation, no call and no
change; on a successful call, remove the row locally; on a failed call,
alert only. -/
def deleteSubmissionDash (d : DashState) (id : Nat) (confirmed : Bool)
    (outcome : DeleteOutcome) : DashState :=
  if !confirmed then d
  else
    match outcome with
    | .success => { d with submissions := removeSubmissionFromList d.submissions id }
    | .failure => d

/-! ### Submission form and refresh trigger -/

/-- `createSubmissionRequest()` of the form:
`this.textControl?.value?.trim() || ''` — the trimmed raw value, with the
empty string standing in for a null field value (and for a trim that came
out empty, the `|| ''` fallback). -/
def createSubmissionRequest (value : Option String) : String :=
  match value with
  | none => ""
  | some s => if trimString s = "" then "" else trimString s

/-- The form's validator set on the raw field value: `Validators.required`
(null or empty fails), `Validators.minLength(10)` and
`Validators.maxLength(50)` — both length validators compare the raw,
untrimmed value. -/
def formTextValid (value : Option String) : Bool :=
  match value with
  | none => false
  | some s =>
    !s.isEmpty && TEXT_MIN_LENGTH ≤ s.length && s.length ≤ TEXT_MAX_LENGTH

/-- The root component's trigger counter (`App.dashboardRefreshTrigger`). -/
structure AppState where
  dashboardRefreshTrigger : Nat
  deriving Repr, DecidableEq

/-- `App.onSubmissionAdded()`: increment the trigger counter. -/
def onSubmissionAdded (a : AppState) : AppState :=
  { a with dashboardRefreshTrigger := a.dashboardRefreshTrigger + 1 }

/-- Form component state (text-submission-form.ts). -/
structure FormState where
  isSubmitting : Bool
  submitMessage : String
  submitSuccess : Bool
  deriving Repr, DecidableEq

/-- `MESSAGES.SUCCESS` of text-submission-form.ts. -/
def SUCCESS_MESSAGE : String := "Text submitted successfully!"

/-- Modelled from the spec: the `submissionAdded` output emission inside
`handleSubmissionSuccess` is absent from the repository snapshot of
text-submission-form.ts (only the component's unit tests and the root
component's `onSubmissionAdded` handler reference it). Spec §4.2/§6: on
success the form clears the field, sets a success message, flips
`isSubmitting` back to false, and signals the dashboard to reload by
incrementing the counter/trigger value. -/
def handleSubmissionSuccess (f : FormState) (a : AppState) :
    FormState × AppState :=
  ({ f with isSubmitting := false,
            submitSuccess := true,
            submitMessage := SUCCESS_MESSAGE },
   onSubmissionAdded a)

/-- The action the dashboard's constructor effect schedules: a reload of the
list after a fixed delay in milliseconds (`setTimeout(..., 100)`). -/
inductive ScheduledAction where
  | reloadAfterMs (delay : Nat)
  deriving Repr, DecidableEq

/-- The dashboard's constructor `effect`: any trigger value greater than
zero schedules a reload after a 100 ms delay; the initial value 0 schedules
nothing. -/
def refreshEffect (trigger : Nat) : Option ScheduledAction :=
  if trigger > 0 then some (.reloadAfterMs 100) else none

/-! ## Helper lemmas -/

/-- Inserting into the descending order is a permutation with consing. -/
lemma insertByCreatedAtDesc_perm (x : TextSubmission) (l : List TextSubmission) :
    (insertByCreatedAtDesc x l).Perm (x :: l) := by
  induction l with
  | nil => simp [insertByCreatedAtDesc]
  | cons y ys ih =>
    unfold insertByCreatedAtDesc
    split
    · exact List.Perm.refl _
    · exact (ih.cons y).trans (List.Perm.swap x y ys)

/-- The descending sort returned by `GetTextSubmissions` is a permutation of
the table. -/
lemma orderByCreatedAtDesc_perm (rows : List TextSubmission) :
    (orderByCreatedAtDesc rows).Perm rows := by
  induction rows with
  | nil => simp [orderByCreatedAtDesc]
  | cons r rs ih =>
    have h1 : (orderByCreatedAtDesc (r :: rs)).Perm
        (r :: orderByCreatedAtDesc rs) :=
      insertByCreatedAtDesc_perm r (orderByCreatedAtDesc rs)
    exact h1.trans (ih.cons r)

/-- Ordering predicate of the list view: `createdAt` non-increasing. -/
def CreatedAtDesc : List TextSubmission → Prop :=
  List.Sorted (fun a b => b.createdAt ≤ a.createdAt)

/-- Insertion preserves the descending order. -/
lemma insertByCreatedAtDesc_sorted {x : TextSubmission}
    {l : List TextSubmission} (h : CreatedAtDesc l) :
    CreatedAtDesc (insertByCreatedAtDesc x l) := by
  unfold CreatedAtDesc at h ⊢
  induction l with
  | nil => simp [insertByCreatedAtDesc]
  | cons y ys ih =>
    rw [List.sorted_cons] at h
    obtain ⟨hy, hys⟩ := h
    unfold insertByCreatedAtDesc
    split
    · rename_i hle
      rw [List.sorted_cons]
      constructor
      · intro b hb
        rcases List.mem_cons.mp hb with hb | hb
        · exact hb ▸ hle
        · exact le_trans (hy b hb) hle
      · rw [List.sorted_cons]
        exact ⟨hy, hys⟩
    · rename_i hgt
      rw [List.sorted_cons]
      refine ⟨?_, ih hys⟩
      intro b hb
      have hmem := (insertByCreatedAtDesc_perm x ys).mem_iff.mp hb
      rcases List.mem_cons.mp hmem with hb' | hb'
      · subst hb'
        exact le_of_not_le hgt
      · exact hy b hb'

/-- The result of the descending sort is sorted. -/
lemma orderByCreatedAtDesc_sorted (rows : List TextSubmission) :
    CreatedAtDesc (orderByCreatedAtDesc rows) := by
  induction rows with
  | nil => simp [orderByCreatedAtDesc, CreatedAtDesc]
  | cons r rs ih => exact insertByCreatedAtDesc_sorted ih

/-- `findRow` fails exactly when no row carries the key. -/
lemma findRow_eq_none_iff (db : Db) (id : Nat) :
    db.findRow id = none ↔ ∀ r ∈ db.rows, r.id ≠ id := by
  unfold Db.findRow
  rw [List.find?_eq_none]
  constructor
  · intro h r hr
    have := h r hr
    simpa using this
  · intro h r hr
    simpa using h r hr

/-- A row returned by `findRow` carries the key. -/
lemma findRow_some_id {db : Db} {id : Nat} {r : TextSubmission}
    (h : db.findRow id = some r) : r.id = id := by
  have := List.find?_some h
  simpa using this

/-- A row returned by `findRow` is in the table. -/
lemma findRow_some_mem {db : Db} {id : Nat} {r : TextSubmission}
    (h : db.findRow id = some r) : r ∈ db.rows :=
  List.mem_of_find?_eq_some h

/-- A found row splits the table into a prefix without the key, the row, and
a suffix; `updateFirstRow` rewrites exactly the row's `text`. -/
lemma updateFirstRow_split {rows : List TextSubmission} {id : Nat}
    {r : TextSubmission}
    (h : rows.find? (fun s => s.id == id) = some r) (text : String) :
    ∃ l₁ l₂, rows = l₁ ++ r :: l₂ ∧ (∀ s ∈ l₁, s.id ≠ id) ∧
      updateFirstRow id text rows = l₁ ++ { r with text := text } :: l₂ := by
  induction rows with
  | nil => simp at h
  | cons a as ih =>
    by_cases ha : a.id = id
    · rw [List.find?_cons_of_pos as (by simpa using ha)] at h
      obtain rfl : a = r := by simpa using h
      exact ⟨[], as, by simp, by simp, by simp [updateFirstRow, ha]⟩
    · rw [List.find?_cons_of_neg as (by simpa using ha)] at h
      obtain ⟨l₁, l₂, hsplit, hpre, hupd⟩ := ih h
      refine ⟨a :: l₁, l₂, by simp [hsplit], ?_, ?_⟩
      · intro s hs
        rcases List.mem_cons.mp hs with hs | hs
        · exact hs ▸ ha
        · exact hpre s hs
      · simp [updateFirstRow, ha, hupd]

/-- A found row splits the table into a prefix without the key, the row, and
a suffix; `removeFirstRow` drops exactly the row. -/
lemma removeFirstRow_split {rows : List TextSubmission} {id : Nat}
    {r : TextSubmission}
    (h : rows.find? (fun s => s.id == id) = some r) :
    ∃ l₁ l₂, rows = l₁ ++ r :: l₂ ∧ (∀ s ∈ l₁, s.id ≠ id) ∧
      removeFirstRow id rows = l₁ ++ l₂ := by
  induction rows with
  | nil => simp at h
  | cons a as ih =>
    by_cases ha : a.id = id
    · rw [List.find?_cons_of_pos as (by simpa using ha)] at h
      obtain rfl : a = r := by simpa using h
      exact ⟨[], as, by simp, by simp, by simp [removeFirstRow, ha]⟩
    · rw [List.find?_cons_of_neg as (by simpa using ha)] at h
      obtain ⟨l₁, l₂, hsplit, hpre, hrem⟩ := ih h
      refine ⟨a :: l₁, l₂, by simp [hsplit], ?_, ?_⟩
      · intro s hs
        rcases List.mem_cons.mp hs with hs | hs
        · exact hs ▸ ha
        · exact hpre s hs
      · simp [removeFirstRow, ha, hrem]

/-- `find?` skips a prefix with no hit. -/
lemma find?_append_of_none {α : Type} {p : α → Bool} {l₁ : List α}
    (l₂ : List α) (h : l₁.find? p = none) :
    (l₁ ++ l₂).find? p = l₂.find? p := by
  induction l₁ with
  | nil => simp
  | cons a as ih =>
    rw [List.find?_eq_none] at h
    have ha : p a = false := by
      have := h a (List.mem_cons_self a as)
      simpa using this
    have htail : as.find? p = none :=
      List.find?_eq_none.mpr (fun x hx => h x (List.mem_cons_of_mem a hx))
    rw [List.cons_append, List.find?_cons_of_neg (as ++ l₂) (by simp [ha]),
      ih htail]

/-- Under the auto-increment invariant, no existing row carries the counter
value as key. -/
lemma findRow_nextId_eq_none {db : Db} (hfresh : db.FreshIds) :
    db.rows.find? (fun s => s.id == db.nextId) = none := by
  rw [List.find?_eq_none]
  intro r hr
  have h1 := hfresh r hr
  simpa using Nat.ne_of_lt h1

/-! ## Claim theorems -/

/-- C4 counterexample: on a table with two rows sharing a `createdAt`
(timestamps can collide at clock resolution), the sequence returned by
ReadAll is not ordered strictly descending — the claim as stated fails. -/
theorem readAll_not_strictly_descending :
    ¬ List.Sorted (fun a b => b.createdAt < a.createdAt)
      (getTextSubmissions
        { rows := [{ id := 1, text := "a", createdAt := 5 },
                   { id := 2, text := "b", createdAt := 5 }], nextId := 3 }) := by
  intro h
  have heval : getTextSubmissions
      { rows := [{ id := 1, text := "a", createdAt := 5 },
                 { id := 2, text := "b", createdAt := 5 }], nextId := 3 } =
      [{ id := 1, text := "a", createdAt := 5 },
       { id := 2, text := "b", createdAt := 5 }] := by rfl
  rw [heval, List.sorted_cons] at h
  have h5 := h.1 _ (List.mem_cons_self _ _)
  simp at h5

/-- C4 (amended): for every table state, ReadAll returns all rows — a
permutation of the table — ordered by `createdAt` non-strictly descending
(newest first), and returns the empty sequence, never an error, when the
table is empty. -/
theorem readAll_sorted_descending (db : Db) :
    (getTextSubmissions db).Perm db.rows ∧
    CreatedAtDesc (getTextSubmissions db) ∧
    (db.rows = [] → getTextSubmissions db = []) := by
  refine ⟨orderByCreatedAtDesc_perm db.rows,
    orderByCreatedAtDesc_sorted db.rows, ?_⟩
  intro h
  simp [getTextSubmissions, h, orderByCreatedAtDesc]

/-- C4 witness: the amended theorem applied to the empty table. -/
theorem readAll_sorted_descending_witness :
    getTextSubmissions { rows := [], nextId := 1 } = [] :=
  (readAll_sorted_descending { rows := [], nextId := 1 }).2.2 rfl

/-- C8: when a dashboard list load fails, the dashboard shows the generic
load-failure message, drops the loading flag, and the cached submissions
list keeps exactly the value it had before the load started. -/
theorem loadFailure_keeps_list (d : DashState) :
    (loadSubmissionsError d).errorMessage = LOAD_FAILED ∧
    (loadSubmissionsError d).isLoading = false ∧
    (loadSubmissionsError d).submissions = d.submissions ∧
    (loadSubmissionsError (loadSubmissionsStart d)).submissions =
      d.submissions := by
  simp [loadSubmissionsError, loadSubmissionsStart, setLoadingState,
    handleError]

/-- C9: the form's validators judge the raw field value while the request
carries the trimmed value (empty for a null field), so a field value made
valid by leading whitespace submits a text below the 10-character minimum. -/
theorem form_validates_raw_submits_trimmed :
    createSubmissionRequest none = "" ∧
    (∀ s : String, createSubmissionRequest (some s) = trimString s) ∧
    (∃ s : String, formTextValid (some s) = true ∧
      (createSubmissionRequest (some s)).length < TEXT_MIN_LENGTH) := by
  refine ⟨rfl, ?_, ?_⟩
  · intro s
    show (if trimString s = "" then "" else trimString s) = trimString s
    split
    · rename_i h
      exact h.symm
    · rfl
  · exact ⟨"        ab", by decide, by decide⟩

/-- Patch-one is the identity when no list entry carries the id. -/
lemma updateSubmissionInList_of_absent {subs : List TextSubmissionModel}
    {id : Nat} {u : TextSubmissionModel} (h : ∀ s ∈ subs, s.id ≠ id) :
    updateSubmissionInList subs id u = subs := by
  induction subs with
  | nil => rfl
  | cons a as ih =>
    have ha : (a.id == id) = false := by
      simpa using h a (List.mem_cons_self a as)
    have htail := ih (fun s hs => h s (List.mem_cons_of_mem a hs))
    simp only [updateSubmissionInList, List.map_cons, ha, Bool.false_eq_true,
      if_false] at htail ⊢
    rw [htail]

/-- Remove-one is the identity when no list entry carries the id. -/
lemma removeSubmissionFromList_of_absent {subs : List TextSubmissionModel}
    {id : Nat} (h : ∀ s ∈ subs, s.id ≠ id) :
    removeSubmissionFromList subs id = subs := by
  unfold removeSubmissionFromList
  apply List.filter_eq_self.mpr
  intro a ha
  simpa using h a ha

/-- C10: for an id absent from the dashboard's list, patch-one and
remove-one both leave the list exactly unchanged; remove-one drops every
entry carrying the id and keeps the remaining entries in relative order. -/
theorem list_patch_remove_frame (subs : List TextSubmissionModel) (id : Nat)
    (u : TextSubmissionModel) :
    ((∀ s ∈ subs, s.id ≠ id) →
      updateSubmissionInList subs id u = subs ∧
      removeSubmissionFromList subs id = subs) ∧
    (∀ s ∈ removeSubmissionFromList subs id, s.id ≠ id) ∧
    (removeSubmissionFromList subs id).Sublist subs ∧
    (∀ s ∈ subs, s.id ≠ id → s ∈ removeSubmissionFromList subs id) := by
  refine ⟨?_, ?_, ?_, ?_⟩
  · intro h
    exact ⟨updateSubmissionInList_of_absent h,
      removeSubmissionFromList_of_absent h⟩
  · intro s hs
    have hp := List.of_mem_filter hs
    simpa using hp
  · exact List.filter_sublist subs
  · intro s hs hid
    unfold removeSubmissionFromList
    exact List.mem_filter.mpr ⟨hs, by simpa using hid⟩

/-- C10 witness: the frame theorem applied to a one-element list and an
absent id. -/
theorem list_patch_remove_frame_witness :
    updateSubmissionInList [{ id := 1, text := "t", createdAt := "c" }] 2
        { id := 2, text := "u", createdAt := "d" } =
      [{ id := 1, text := "t", createdAt := "c" }] ∧
    removeSubmissionFromList [{ id := 1, text := "t", createdAt := "c" }] 2 =
      [{ id := 1, text := "t", createdAt := "c" }] :=
  (list_patch_remove_frame [{ id := 1, text := "t", createdAt := "c" }] 2
    { id := 2, text := "u", createdAt := "d" }).1 (by decide)

/-- C1: the server Update operation answers NotFound when no row carries
the id, ValidationError when the text breaks the Create rules, and
otherwise overwrites exactly the matching row's text — its id and
createdAt, and every other row, untouched — and returns the updated row. -/
theorem update_spec (db : Db) (id : Nat) (text : String) :
    (db.findRow id = none →
      putTextSubmission db id text = (db, .error .notFound)) ∧
    (∀ r, db.findRow id = some r → isServerValid text = false →
      putTextSubmission db id text = (db, .error .validationError)) ∧
    (∀ r, db.findRow id = some r → isServerValid text = true →
      (putTextSubmission db id text).2 =
        .ok { id := r.id, text := text, createdAt := r.createdAt } ∧
      (putTextSubmission db id text).1.nextId = db.nextId ∧
      ∃ l₁ l₂, db.rows = l₁ ++ r :: l₂ ∧ (∀ s ∈ l₁, s.id ≠ id) ∧
        (putTextSubmission db id text).1.rows =
          l₁ ++ { id := r.id, text := text, createdAt := r.createdAt } :: l₂) := by
  refine ⟨?_, ?_, ?_⟩
  · intro h
    simp [putTextSubmission, h]
  · intro r hr hv
    simp [putTextSubmission, hr, hv]
  · intro r hr hv
    obtain ⟨l₁, l₂, hsplit, hpre, hupd⟩ := updateFirstRow_split hr text
    refine ⟨?_, ?_, l₁, l₂, hsplit, hpre, ?_⟩
    · simp [putTextSubmission, hr, hv]
    · simp [putTextSubmission, hr, hv]
    · simp [putTextSubmission, hr, hv, hupd]

/-- C1 witness: updating the only row of a one-row table. -/
theorem update_spec_witness :
    (putTextSubmission
        { rows := [{ id := 1, text := "Original text", createdAt := 7 }],
          nextId := 2 } 1 "Updated text").2 =
      .ok { id := 1, text := "Updated text", createdAt := 7 } :=
  ((update_spec
      { rows := [{ id := 1, text := "Original text", createdAt := 7 }],
        nextId := 2 } 1 "Updated text").2.2
    { id := 1, text := "Original text", createdAt := 7 }
    (by decide) (by decide)).1

/-- C2: the server Delete operation answers NotFound when no row carries
the id, and otherwise removes exactly that one row, returns no content, and
a subsequent by-id Read of the id answers NotFound (keys being unique). -/
theorem delete_spec (db : Db) (id : Nat) :
    (db.findRow id = none →
      deleteTextSubmission db id = (db, .error .notFound)) ∧
    (∀ r, db.findRow id = some r →
      (deleteTextSubmission db id).2 = .ok () ∧
      (deleteTextSubmission db id).1.nextId = db.nextId ∧
      (∃ l₁ l₂, db.rows = l₁ ++ r :: l₂ ∧ (∀ s ∈ l₁, s.id ≠ id) ∧
        (deleteTextSubmission db id).1.rows = l₁ ++ l₂) ∧
      ((db.rows.map TextSubmission.id).Nodup →
        getTextSubmission (deleteTextSubmission db id).1 id =
          .error .notFound)) := by
  refine ⟨?_, ?_⟩
  · intro h
    simp [deleteTextSubmission, h]
  · intro r hr
    obtain ⟨l₁, l₂, hsplit, hpre, hrem⟩ := removeFirstRow_split hr
    have hd1 : (deleteTextSubmission db id).1.rows = l₁ ++ l₂ := by
      simp [deleteTextSubmission, hr, hrem]
    refine ⟨by simp [deleteTextSubmission, hr],
      by simp [deleteTextSubmission, hr], ⟨l₁, l₂, hsplit, hpre, hd1⟩, ?_⟩
    intro hnodup
    have hid : r.id = id := findRow_some_id hr
    rw [hsplit, List.map_append, List.map_cons] at hnodup
    have h2 : r.id ∉ l₂.map TextSubmission.id :=
      (List.nodup_cons.mp (List.nodup_append.mp hnodup).2.1).1
    have hfind : (l₁ ++ l₂).find? (fun s => s.id == id) = none := by
      rw [List.find?_eq_none]
      intro s hs
      rcases List.mem_append.mp hs with h | h
      · simpa using hpre s h
      · have hne : s.id ≠ id := by
          intro he
          have hmem : s.id ∈ l₂.map TextSubmission.id :=
            List.mem_map_of_mem _ h
          rw [he, ← hid] at hmem
          exact h2 hmem
        simpa using hne
    simp [getTextSubmission, Db.findRow, hd1, hfind]

/-- C2 witness: deleting the only row of a one-row table, then reading it
back yields NotFound. -/
theorem delete_spec_witness :
    getTextSubmission
      (deleteTextSubmission
        { rows := [{ id := 1, text := "To be deleted", createdAt := 3 }],
          nextId := 2 } 1).1 1 = .error .notFound :=
  ((delete_spec
      { rows := [{ id := 1, text := "To be deleted", createdAt := 3 }],
        nextId := 2 } 1).2
    { id := 1, text := "To be deleted", createdAt := 3 }
    (by decide)).2.2.2 (by decide)

/-- C3: Create rejects empty, whitespace-only, and over-1000-character text
with ValidationError and persists nothing; any other text is persisted as
exactly one appended row carrying the fresh id and the current timestamp,
answered 201 with a Location reference that resolves, via the by-id read,
to the created row. -/
theorem create_spec (db : Db) (now : Nat) (text : String) :
    ((trimString text = "" ∨ 1000 < text.length) →
      postTextSubmission db now text = (db, .error .validationError)) ∧
    (trimString text ≠ "" → text.length ≤ 1000 →
      (postTextSubmission db now text).1.rows =
        db.rows ++ [{ id := db.nextId, text := text, createdAt := now }] ∧
      (postTextSubmission db now text).1.nextId = db.nextId + 1 ∧
      (postTextSubmission db now text).2 =
        .ok { status := 201, locationId := db.nextId,
              body := { id := db.nextId, text := text, createdAt := now } } ∧
      (db.FreshIds →
        db.nextId ∉ db.rows.map TextSubmission.id ∧
        getTextSubmission (postTextSubmission db now text).1 db.nextId =
          .ok { id := db.nextId, text := text, createdAt := now })) := by
  constructor
  · intro h
    have hv : isServerValid text = false := by
      unfold isServerValid
      rcases h with h | h
      · simp [h, (by decide : ("" : String).isEmpty = true)]
      · simp [Nat.not_le.mpr h]
    simp [postTextSubmission, hv]
  · intro h1 h2
    have hv : isServerValid text = true := by
      unfold isServerValid
      simp [h2, (String.isEmpty_iff _).ne.mpr h1]
    refine ⟨by simp [postTextSubmission, hv], by simp [postTextSubmission, hv],
      by simp [postTextSubmission, hv], ?_⟩
    intro hfresh
    constructor
    · intro hmem
      obtain ⟨r, hrmem, hrid⟩ := List.mem_map.mp hmem
      have := hfresh r hrmem
      omega
    · have hskip := find?_append_of_none
        [{ id := db.nextId, text := text, createdAt := now }]
        (findRow_nextId_eq_none hfresh)
      simp [postTextSubmission, hv, getTextSubmission, Db.findRow, hskip]

/-- C3 witness: a valid text is appended to an empty table and the Location
reference resolves to it. -/
theorem create_spec_witness :
    getTextSubmission
      (postTextSubmission { rows := [], nextId := 1 } 42
        "Valid submission text").1 1 =
      .ok { id := 1, text := "Valid submission text", createdAt := 42 } :=
  ((create_spec { rows := [], nextId := 1 } 42 "Valid submission text").2
    (by decide) (by decide) ).2.2.2 (by intro r hr; simp at hr) |>.2

/-- C5: reading back the submission created from a text the server accepts
yields exactly that text — Create does not trim or normalise the content it
accepts. -/
theorem create_read_roundtrip (db : Db) (now : Nat) (text : String)
    (hfresh : db.FreshIds) (hvalid : isServerValid text = true) :
    ∃ c : CreatedResult,
      (postTextSubmission db now text).2 = .ok c ∧
      c.body.text = text ∧
      getTextSubmission (postTextSubmission db now text).1 c.locationId =
        .ok c.body := by
  refine ⟨{ status := 201, locationId := db.nextId,
            body := { id := db.nextId, text := text, createdAt := now } },
    by simp [postTextSubmission, hvalid], rfl, ?_⟩
  have hskip := find?_append_of_none
    [{ id := db.nextId, text := text, createdAt := now }]
    (findRow_nextId_eq_none hfresh)
  simp [postTextSubmission, hvalid, getTextSubmission, Db.findRow, hskip]

/-- C5 witness: the round-trip at a concrete accepted text. -/
theorem create_read_roundtrip_witness :
    ∃ c : CreatedResult,
      (postTextSubmission { rows := [], nextId := 1 } 0 "hello world").2 =
        .ok c ∧
      c.body.text = "hello world" ∧
      getTextSubmission
        (postTextSubmission { rows := [], nextId := 1 } 0 "hello world").1
        c.locationId = .ok c.body :=
  create_read_roundtrip { rows := [], nextId := 1 } 0 "hello world"
    (by intro r hr; simp at hr) (by decide)

/-- C6: a successful form submission signals the dashboard by incrementing
the refresh trigger counter (while clearing the submitting flag and setting
the success message), and the dashboard's constructor effect schedules a
list reload after the fixed 100 ms delay for every trigger value above
zero (and none for the initial value 0). -/
theorem refresh_signal_spec (f : FormState) (a : AppState) (t : Nat) :
    (handleSubmissionSuccess f a).2.dashboardRefreshTrigger =
      a.dashboardRefreshTrigger + 1 ∧
    (handleSubmissionSuccess f a).1.isSubmitting = false ∧
    (handleSubmissionSuccess f a).1.submitMessage = SUCCESS_MESSAGE ∧
    (t > 0 → refreshEffect t = some (.reloadAfterMs 100)) ∧
    refreshEffect 0 = none := by
  refine ⟨rfl, rfl, rfl, ?_, rfl⟩
  intro ht
  simp [refreshEffect, ht]

/-- C6 witness: trigger value 1 schedules the delayed reload. -/
theorem refresh_signal_spec_witness :
    refreshEffect 1 = some (.reloadAfterMs 100) :=
  (refresh_signal_spec
    { isSubmitting := true, submitMessage := "", submitSuccess := false }
    { dashboardRefreshTrigger := 0 } 1).2.2.2.1 (by decide)

/-- C7: the dashboard edit mode follows exactly the specified state
machine: startEdit enters Editing(row.id) (also directly from another
Editing state, without confirmation), cancelEdit and a successful saveEdit
return to Idle, a failed saveEdit (client-side validation failure or server
failure) leaves the state — editText included — untouched, and no other
dashboard operation (load start/success/failure, delete) touches the edit
state. -/
theorem edit_state_machine (d : DashState) (row b : TextSubmissionModel)
    (id : Nat) (u : TextSubmissionModel) :
    ((startEdit d row).editingId = some row.id ∧
     (startEdit d row).editText = row.text) ∧
    ((cancelEdit d).editingId = none ∧ (cancelEdit d).editText = "") ∧
    (isValidTextLength (trimString d.editText) = true →
      (saveEdit d id (.success u)).editingId = none) ∧
    (saveEdit d id .failure = d) ∧
    (isValidTextLength (trimString d.editText) = false →
      ∀ o, saveEdit d id o = d) ∧
    (d.editingId = some id → b.id ≠ id →
      (startEdit d b).editingId = some b.id) ∧
    ((loadSubmissionsStart d).editingId = d.editingId ∧
     (loadSubmissionsStart d).editText = d.editText) ∧
    (∀ subs, (loadSubmissionsNext d subs).editingId = d.editingId ∧
      (loadSubmissionsNext d subs).editText = d.editText) ∧
    ((loadSubmissionsError d).editingId = d.editingId ∧
     (loadSubmissionsError d).editText = d.editText) ∧
    (∀ c o, (deleteSubmissionDash d id c o).editingId = d.editingId ∧
      (deleteSubmissionDash d id c o).editText = d.editText) := by
  refine ⟨⟨rfl, rfl⟩, ⟨rfl, rfl⟩, ?_, ?_, ?_, ?_, ?_, ?_, ?_, ?_⟩
  · intro h
    simp [saveEdit, h, resetEditState]
  · cases hval : isValidTextLength (trimString d.editText) with
    | false => simp [saveEdit, hval]
    | true => simp [saveEdit, hval]
  · intro h o
    simp [saveEdit, h]
  · intro _ _
    rfl
  · simp [loadSubmissionsStart, setLoadingState]
  · intro subs
    simp [loadSubmissionsNext, setLoadingState]
  · simp [loadSubmissionsError, setLoadingState, handleError]
  · intro c o
    cases c <;> cases o <;> simp [deleteSubmissionDash]

/-- C7 witness: a successful save from Editing(1) with a valid edit text
returns to Idle. -/
theorem edit_state_machine_witness :
    (saveEdit
      { submissions := [], isLoading := false, errorMessage := "",
        editingId := some 1, editText := "valid text!" } 1
      (.success { id := 1, text := "valid text!", createdAt := "c" })).editingId
      = none :=
  (edit_state_machine
    { submissions := [], isLoading := false, errorMessage := "",
      editingId := some 1, editText := "valid text!" }
    { id := 1, text := "valid text!", createdAt := "c" }
    { id := 1, text := "valid text!", createdAt := "c" } 1
    { id := 1, text := "valid text!", createdAt := "c" }).2.2.1
    (by decide)

end TextSubmissionApp
